import Mathlib

/-!
Shallow embedding of the invite, reaction and cascading-delete workflows of
the ending_collection backend (app/crud.py, app/models.py), together with
proofs of the behavioural properties claimed of them.

Database rows are records; each table is a list of rows; the database is a
record of tables.  CRUD functions from app/crud.py become pure functions
from a database state (plus the inputs the Python code obtains from the
environment: the current wall-clock time `datetime.utcnow()`, the freshly
generated uuid4 token, the autoincrement primary key, and the success or
failure of each external blob deletion) to a result and a new database
state.  `db.commit()` making all staged changes visible at once is modelled
by returning the new state; a code path that returns without committing
returns the original state, matching `sessionmaker(autocommit=False)` in
app/db.py which rolls back uncommitted work when the session closes.
-/

/-- Membership roles, the `user_role_enum` of app/models.py. -/
inductive Role where
  | poster
  | viewer
  deriving DecidableEq, Repr

/-- Modelled from the spec: the `GroupInvite` ORM class is imported by
app/crud.py but its declaration is absent from app/models.py; its columns
are taken from `GroupInviteResponse` in app/schemas.py, and the spec's
invite lifecycle fixes the creation defaults (a new invite starts with
`used = false`, `used_at` and `invited_user_id` unset).  Timestamps are
naturals. -/
structure GroupInvite where
  invite_id : Nat
  group_id : Nat
  token : String
  inviter_user_id : Nat
  invited_user_id : Option Nat
  created_at : Nat
  expires_at : Option Nat
  used : Bool
  used_at : Option Nat
  deriving DecidableEq, Repr

/-- Row of `user_family_groups` (app/models.py `UserFamilyGroup`). -/
structure UserFamilyGroup where
  user_id : Nat
  group_id : Nat
  role : Role
  joined_at : Nat
  deriving DecidableEq, Repr

/-- Row of `message_reactions` (app/models.py `MessageReaction`).  The
`reaction_type_enum` values are kept as strings. -/
structure MessageReaction where
  reaction_id : Nat
  message_id : Nat
  user_id : Nat
  reaction_type : String
  created_at : Nat
  deriving DecidableEq, Repr

/-- Row of `messages` (app/models.py `Message`), restricted to the columns
the delete workflow touches. -/
structure Message where
  message_id : Nat
  thread_id : Nat
  user_id : Nat
  content : String
  deriving DecidableEq, Repr

/-- Row of `message_attachments` (app/models.py `MessageAttachment`). -/
structure MessageAttachment where
  attachment_id : Nat
  message_id : Nat
  attachment_url : String
  attachment_type : String
  deriving DecidableEq, Repr

/-- Row of `items` (app/models.py `Item`), restricted to the columns the
delete workflow touches. -/
structure Item where
  item_id : Nat
  user_id : Nat
  group_id : Nat
  item_name : String
  deriving DecidableEq, Repr

/-- Row of `item_images` (app/models.py `ItemImage`). -/
structure ItemImage where
  image_id : Nat
  item_id : Nat
  image_url : String
  deriving DecidableEq, Repr

/-- Row of `threads` (app/models.py `Thread`). -/
structure Thread where
  thread_id : Nat
  item_id : Nat
  title : String
  deriving DecidableEq, Repr

/-- The database: one list of rows per table the claims touch. -/
structure DB where
  invites : List GroupInvite
  memberships : List UserFamilyGroup
  reactions : List MessageReaction
  messages : List Message
  attachments : List MessageAttachment
  items : List Item
  itemImages : List ItemImage
  threads : List Thread
  deriving DecidableEq, Repr

/-- Replace the first element satisfying `p` by its image under `f`.  This
is how a SQLAlchemy attribute assignment on the object returned by
`query(...).first()` acts on the table: exactly the first matching row is
rewritten. -/
def updateFirst (p : α → Bool) (f : α → α) : List α → List α
  | [] => []
  | x :: xs => if p x then f x :: xs else x :: updateFirst p f xs

/-- app/crud.py `get_group_invite_by_token`: first invite row whose token
matches, `None` if there is none. -/
def get_group_invite_by_token (db : DB) (token : String) : Option GroupInvite :=
  db.invites.find? (fun i => i.token == token)

/-- The expiry test of app/crud.py line 338:
`invite.expires_at and invite.expires_at < datetime.utcnow()`. -/
def inviteExpired (inv : GroupInvite) (now : Nat) : Bool :=
  match inv.expires_at with
  | some e => decide (e < now)
  | none => false

/-- Result of `accept_group_invite`: the returned value, the database state
visible after the call, and the list of states made durable by a
`db.commit()` (used to express atomicity: the code commits at most once). -/
structure AcceptResult where
  invite : Option GroupInvite
  db : DB
  commits : List DB
  deriving DecidableEq, Repr

/-- app/crud.py `accept_group_invite` (lines 322-361): look up the invite by
token; return `None` on unknown token, on `used = true`, or on expiry;
otherwise add a viewer membership unless the user already belongs to the
invite's group, mark the invite used with `used_at = now` and
`invited_user_id`, and commit everything at once. -/
def accept_group_invite (db : DB) (token : String) (invited_user_id : Nat)
    (now : Nat) : AcceptResult :=
  match get_group_invite_by_token db token with
  | none => ⟨none, db, []⟩
  | some invite =>
    if invite.used || inviteExpired invite now then
      ⟨none, db, []⟩
    else
      let existing := db.memberships.find?
        (fun m => m.user_id == invited_user_id && m.group_id == invite.group_id)
      let memberships' :=
        match existing with
        | some _ => db.memberships
        | none => db.memberships ++ [⟨invited_user_id, invite.group_id, Role.viewer, now⟩]
      let invite' : GroupInvite :=
        { invite with used := true, used_at := some now, invited_user_id := some invited_user_id }
      let db' : DB :=
        { db with
            invites := updateFirst (fun i => i.token == token) (fun _ => invite') db.invites,
            memberships := memberships' }
      ⟨some invite', db', [db']⟩

/-- app/crud.py `create_group_invite` (lines 291-311): unconditionally
insert a new invite row carrying the freshly generated token and the
caller-supplied optional expiry; the row starts unused. -/
def create_group_invite (db : DB) (group_id inviter_user_id : Nat)
    (token : String) (expires_at : Option Nat) (new_invite_id now : Nat) :
    GroupInvite × DB :=
  let invite : GroupInvite :=
    ⟨new_invite_id, group_id, token, inviter_user_id, none, now, expires_at, false, none⟩
  (invite, { db with invites := db.invites ++ [invite] })

/-- app/crud.py `revoke_group_invite` (lines 371-379): delete the rows with
the given invite id, reporting whether any row was deleted. -/
def revoke_group_invite (db : DB) (invite_id : Nat) : Bool × DB :=
  (decide (0 < db.invites.countP (fun i => i.invite_id == invite_id)),
   { db with invites := db.invites.filter (fun i => !(i.invite_id == invite_id)) })

/-- True when a membership row for the pair exists. -/
def hasMembership (db : DB) (uid gid : Nat) : Bool :=
  db.memberships.any (fun m => m.user_id == uid && m.group_id == gid)

/-!
Two-phase model of `accept_group_invite` for reasoning about two concurrent
redemptions.  A redemption in the code is a SELECT of the invite and of the
membership row (the read phase), followed by staged writes that become
visible at `db.commit()` (the commit phase).  The code takes no row lock and
relies on no unique constraint, so under concurrent sessions a second read
phase may run against the shared state before the first session commits;
the interleaving read-read-commit-commit below is therefore a real schedule
of the code.
-/

/-- What one redemption learns in its read phase: the invite row it saw and
whether the redeeming user was already a member of the invite's group. -/
structure RedemptionView where
  invite : GroupInvite
  alreadyMember : Bool
  deriving DecidableEq, Repr

/-- Read phase of `accept_group_invite` against the current shared state:
the token lookup and the `used`/expiry checks of lines 334-339 and the
membership lookup of lines 342-345.  Returns `none` exactly when the code
returns `None` before staging any write. -/
def redemption_read (db : DB) (token : String) (uid now : Nat) :
    Option RedemptionView :=
  match get_group_invite_by_token db token with
  | none => none
  | some invite =>
    if invite.used || inviteExpired invite now then none
    else
      some ⟨invite,
        (db.memberships.find?
          (fun m => m.user_id == uid && m.group_id == invite.group_id)).isSome⟩

/-- Commit phase of `accept_group_invite`: the writes staged from the view
obtained in the read phase (lines 347-359) applied to the shared state at
`db.commit()` time. -/
def redemption_commit (db : DB) (token : String) (uid now : Nat)
    (v : RedemptionView) : DB :=
  let memberships' :=
    if v.alreadyMember then db.memberships
    else db.memberships ++ [⟨uid, v.invite.group_id, Role.viewer, now⟩]
  let invite' : GroupInvite :=
    { v.invite with used := true, used_at := some now, invited_user_id := some uid }
  { db with
      invites := updateFirst (fun i => i.token == token) (fun _ => invite') db.invites,
      memberships := memberships' }

/-- Two sessions redeem the same token concurrently under the schedule
read1, read2, commit1, commit2 — a schedule the code admits because neither
session acquires exclusivity between its read and its commit.  Returns each
session's outcome (`some` view means that session's call returns the invite,
i.e. reports success) and the final shared state. -/
def concurrent_redemptions (db : DB) (token : String) (uid1 uid2 now : Nat) :
    Option RedemptionView × Option RedemptionView × DB :=
  let v1 := redemption_read db token uid1 now
  let v2 := redemption_read db token uid2 now
  let db1 := match v1 with
    | some v => redemption_commit db token uid1 now v
    | none => db
  let db2 := match v2 with
    | some v => redemption_commit db1 token uid2 now v
    | none => db1
  (v1, v2, db2)

/-- app/crud.py `create_reaction` (lines 70-92): look up the existing
reaction of the (message, user) pair; if none, insert a fresh row; if one
exists with the same type, return it unchanged; otherwise assign the new
type on that same row and commit. -/
def create_reaction (db : DB) (message_id user_id : Nat)
    (reaction_type : String) (new_reaction_id now : Nat) :
    MessageReaction × DB :=
  match db.reactions.find?
      (fun r => r.message_id == message_id && r.user_id == user_id) with
  | some existing =>
    if existing.reaction_type == reaction_type then
      (existing, db)
    else
      ({ existing with reaction_type := reaction_type },
       { db with
           reactions := updateFirst
             (fun r => r.message_id == message_id && r.user_id == user_id)
             (fun r => { r with reaction_type := reaction_type })
             db.reactions })
  | none =>
    let r : MessageReaction :=
      ⟨new_reaction_id, message_id, user_id, reaction_type, now⟩
    (r, { db with reactions := db.reactions ++ [r] })

/-- app/crud.py `delete_reaction` (lines 99-104): bulk-delete every reaction
row of the (message, user) pair and commit; no existence check, no error. -/
def delete_reaction (db : DB) (message_id user_id : Nat) : DB :=
  { db with
      reactions := db.reactions.filter
        (fun r => !(r.message_id == message_id && r.user_id == user_id)) }

/-- The reaction rows of a (message, user) pair. -/
def reactionRows (db : DB) (message_id user_id : Nat) : List MessageReaction :=
  db.reactions.filter (fun r => r.message_id == message_id && r.user_id == user_id)

/-- Result of `delete_item`: the boolean the function returns, the database
state after the call, and the URLs whose blob deletion failed and was logged
as a warning. -/
structure DeleteItemResult where
  ok : Bool
  db : DB
  warnings : List String
  deriving DecidableEq, Repr

/-- app/crud.py `delete_item` (lines 248-266).  `blobOk url = false` means
`delete_blob_by_url url` raises; the exception is caught and logged as one
warning, never aborting the operation.  The row delete on `items` returns
the number of deleted rows; images and threads of a deleted item disappear
through the `ondelete=CASCADE` foreign keys declared in app/models.py. -/
def delete_item (db : DB) (item_id : Nat) (blobOk : String → Bool) :
    DeleteItemResult :=
  let images := db.itemImages.filter (fun im => im.item_id == item_id)
  let warnings := (images.filter (fun im => !(blobOk im.image_url))).map
    (fun im => im.image_url)
  if 0 < db.items.countP (fun it => it.item_id == item_id) then
    ⟨true,
     { db with
         items := db.items.filter (fun it => !(it.item_id == item_id)),
         itemImages := db.itemImages.filter (fun im => !(im.item_id == item_id)),
         threads := db.threads.filter (fun th => !(th.item_id == item_id)) },
     warnings⟩
  else
    ⟨false, db, warnings⟩

/-- One observable step of the delete-message workflow, in execution order:
an attempted remote blob deletion, the bulk delete of the attachment rows,
or the delete of the message row. -/
inductive DeleteEvent where
  | blobDelete (url : String)
  | attachmentRowsDelete
  | messageRowDelete
  deriving DecidableEq, Repr

/-- Result of `delete_message`: the returned message (`none` is the NotFound
signal), the database state visible after the call, the ordered trace of
deletion steps the call performed, and the warned-about blob URLs. -/
structure DeleteMessageResult where
  message : Option Message
  db : DB
  events : List DeleteEvent
  warnings : List String
  deriving DecidableEq, Repr

/-- app/crud.py `delete_message` (lines 48-66): fetch the attachments of the
message and attempt each blob deletion (failures logged, never fatal), then
bulk-delete the attachment rows, then delete the message row and commit if
the message exists.  When it does not, the function returns `None` without
committing, so the staged attachment-row delete is rolled back with the
session and the visible state is unchanged. -/
def delete_message (db : DB) (message_id : Nat) (blobOk : String → Bool) :
    DeleteMessageResult :=
  let atts := db.attachments.filter (fun a => a.message_id == message_id)
  let blobEvents := atts.map (fun a => DeleteEvent.blobDelete a.attachment_url)
  let warnings := (atts.filter (fun a => !(blobOk a.attachment_url))).map
    (fun a => a.attachment_url)
  match db.messages.find? (fun m => m.message_id == message_id) with
  | some m =>
    ⟨some m,
     { db with
         attachments := db.attachments.filter (fun a => !(a.message_id == message_id)),
         messages := db.messages.filter (fun x => !(x.message_id == message_id)) },
     blobEvents ++ [DeleteEvent.attachmentRowsDelete, DeleteEvent.messageRowDelete],
     warnings⟩
  | none =>
    ⟨none, db, blobEvents ++ [DeleteEvent.attachmentRowsDelete], warnings⟩

/-- Every invite row carrying this token is already consumed. -/
def allUsed (db : DB) (token : String) : Prop :=
  ∀ i ∈ db.invites, i.token = token → i.used = true

instance (db : DB) (token : String) : Decidable (allUsed db token) :=
  inferInstanceAs (Decidable (∀ i ∈ db.invites, i.token = token → i.used = true))

/-! Concrete database states used as witnesses and counterexamples. -/

/-- A database with every table empty. -/
def emptyDB : DB :=
  ⟨[], [], [], [], [], [], [], []⟩

/-- An unused invite without expiry for group 1, issued by user 5. -/
def inviteRow : GroupInvite :=
  ⟨1, 1, "t", 5, none, 0, none, false, none⟩

/-- Only `inviteRow` exists. -/
def dbInviteOnly : DB :=
  { emptyDB with invites := [inviteRow] }

/-- `inviteRow` (for group 1) exists and the redeeming user 2 is already a
poster of the unrelated group 9. -/
def dbOtherGroupMember : DB :=
  { emptyDB with invites := [inviteRow], memberships := [⟨2, 9, Role.poster, 0⟩] }

/-- A consumed invite: user 2 redeemed it at time 1. -/
def usedInviteRow : GroupInvite :=
  ⟨1, 1, "t", 5, some 2, 0, none, true, some 1⟩

/-- Only `usedInviteRow` exists. -/
def dbUsedInvite : DB :=
  { emptyDB with invites := [usedInviteRow] }

/-- An unused invite for (group 1, inviter 5) expiring at time 1000. -/
def pendingInviteRow : GroupInvite :=
  ⟨1, 1, "t0", 5, none, 0, some 1000, false, none⟩

/-- Only `pendingInviteRow` exists. -/
def dbPendingInvite : DB :=
  { emptyDB with invites := [pendingInviteRow] }

/-- `inviteRow` (for group 1) exists and the redeeming user 2 is already a
viewer of that same group 1. -/
def dbAlreadyMember : DB :=
  { emptyDB with invites := [inviteRow], memberships := [⟨2, 1, Role.viewer, 0⟩] }

/-- Item 1 with two images and its auto-created thread. -/
def dbItemTwoImages : DB :=
  { emptyDB with
      items := [⟨1, 1, 1, "vase"⟩],
      itemImages := [⟨1, 1, "u1"⟩, ⟨2, 1, "u2"⟩],
      threads := [⟨1, 1, "memories"⟩] }

/-- Message 1 with two attachments. -/
def dbMessageTwoAtts : DB :=
  { emptyDB with
      messages := [⟨1, 1, 1, "hi"⟩],
      attachments := [⟨1, 1, "a1", "image"⟩, ⟨2, 1, "a2", "file"⟩] }

/-- `inviteRow` as it looks after user 2 redeems it at time 10. -/
def consumedInviteRow : GroupInvite :=
  { inviteRow with used := true, used_at := some 10, invited_user_id := some 2 }

/-! Helper lemmas about `updateFirst` and list operations. -/

theorem mem_updateFirst {p : α → Bool} {f : α → α} {l : List α} {y : α}
    (h : y ∈ updateFirst p f l) : y ∈ l ∨ ∃ x ∈ l, y = f x := by
  induction l with
  | nil => simp [updateFirst] at h
  | cons a as ih =>
    simp only [updateFirst] at h
    by_cases hp : p a = true
    · rw [if_pos hp] at h
      rcases List.mem_cons.mp h with h | h
      · exact Or.inr ⟨a, List.mem_cons_self a as, h⟩
      · exact Or.inl (List.mem_cons_of_mem _ h)
    · rw [if_neg hp] at h
      rcases List.mem_cons.mp h with h | h
      · exact Or.inl (h ▸ List.mem_cons_self a as)
      · rcases ih h with h' | ⟨x, hx, hy⟩
        · exact Or.inl (List.mem_cons_of_mem _ h')
        · exact Or.inr ⟨x, List.mem_cons_of_mem _ hx, hy⟩

theorem updateFirst_append_of_not {p : α → Bool} {f : α → α} {l₁ l₂ : List α}
    (h : ∀ x ∈ l₁, p x = false) :
    updateFirst p f (l₁ ++ l₂) = l₁ ++ updateFirst p f l₂ := by
  induction l₁ with
  | nil => rfl
  | cons a as ih =>
    have ha : ¬ p a = true := by simp [h a (List.mem_cons_self a as)]
    simp only [List.cons_append, updateFirst, if_neg ha]
    rw [show as.append l₂ = as ++ l₂ from rfl, ih (fun x hx => h x (List.mem_cons_of_mem _ hx))]

theorem updateFirst_singleton_of_pos {p : α → Bool} {f : α → α} {x : α}
    (h : p x = true) : updateFirst p f [x] = [f x] := by
  simp [updateFirst, h]

/-!  Claim theorems. -/

/-- C1, counterexample.  The claim says accept-invite fails with Conflict
whenever the requesting user already belongs to any group.  The code has no
such check: user 2, already a poster of the unrelated group 9, redeems the
invite to group 1 successfully and a membership row for group 1 is
created. -/
theorem accept_invite_no_one_group_check :
    (accept_group_invite dbOtherGroupMember "t" 2 10).invite.isSome = true ∧
    hasMembership (accept_group_invite dbOtherGroupMember "t" 2 10).db 2 1 = true := by
  decide

/-- C1, amended.  `accept_group_invite` returns the single undifferentiated
failure value `none` — with the database unchanged and nothing committed —
when the token matches no invite, when the matched invite is already used,
or when it is expired; it performs no check on the requesting user's other
memberships; otherwise it returns the invite marked used at `now` by the
requesting user and, when the user is not yet a member of the invite's
group, appends exactly one membership row with role viewer for the user in
that group, while an already-member user leaves the membership table
unchanged. -/
theorem accept_group_invite_outcomes (db : DB) (token : String) (uid now : Nat) :
    (get_group_invite_by_token db token = none →
      accept_group_invite db token uid now = ⟨none, db, []⟩) ∧
    (∀ inv, get_group_invite_by_token db token = some inv →
      inv.used = true ∨ inviteExpired inv now = true →
      accept_group_invite db token uid now = ⟨none, db, []⟩) ∧
    (∀ inv, get_group_invite_by_token db token = some inv →
      inv.used = false → inviteExpired inv now = false →
      (accept_group_invite db token uid now).invite =
        some { inv with used := true, used_at := some now, invited_user_id := some uid } ∧
      (hasMembership db uid inv.group_id = false →
        (accept_group_invite db token uid now).db.memberships =
          db.memberships ++ [⟨uid, inv.group_id, Role.viewer, now⟩]) ∧
      (hasMembership db uid inv.group_id = true →
        (accept_group_invite db token uid now).db.memberships = db.memberships)) := by
  refine ⟨?_, ?_, ?_⟩
  · intro h
    simp [accept_group_invite, h]
  · intro inv h hcase
    have hcond : (inv.used || inviteExpired inv now) = true := by
      rcases hcase with h1 | h1 <;> simp [h1]
    simp [accept_group_invite, h, hcond]
  · intro inv h hu he
    have hcond : (inv.used || inviteExpired inv now) = false := by simp [hu, he]
    simp only [accept_group_invite, h, hcond, Bool.false_eq_true, if_false]
    cases hfind : db.memberships.find?
        (fun m => m.user_id == uid && m.group_id == inv.group_id) with
    | some m =>
      have hp := List.find?_some hfind
      have hin := List.mem_of_find?_eq_some hfind
      have hmem : hasMembership db uid inv.group_id = true := by
        simp only [hasMembership, List.any_eq_true]
        exact ⟨m, hin, hp⟩
      refine ⟨trivial, fun hfalse => ?_, fun _ => ?_⟩
      · rw [hmem] at hfalse
        cases hfalse
      · simp only [hfind]
    | none =>
      have hmem : hasMembership db uid inv.group_id = false := by
        simp only [hasMembership]
        exact List.any_eq_false.mpr (List.find?_eq_none.mp hfind)
      refine ⟨trivial, fun _ => ?_, fun htrue => ?_⟩
      · simp only [hfind]
      · rw [hmem] at htrue
        cases htrue

/-- C1, witness for `accept_group_invite_outcomes`: each branch exercised on
a concrete database — unknown token, consumed invite, a fresh redemption by
the not-yet-member user 2 at time 10 which appends the viewer membership
row, and a redemption by the already-member user 2 which leaves the
membership table unchanged. -/
theorem accept_group_invite_outcomes_witness :
    accept_group_invite dbInviteOnly "nope" 2 10 = ⟨none, dbInviteOnly, []⟩ ∧
    accept_group_invite dbUsedInvite "t" 3 10 = ⟨none, dbUsedInvite, []⟩ ∧
    ((accept_group_invite dbInviteOnly "t" 2 10).invite = some consumedInviteRow ∧
      (accept_group_invite dbInviteOnly "t" 2 10).db.memberships =
        dbInviteOnly.memberships ++ [⟨2, 1, Role.viewer, 10⟩]) ∧
    (accept_group_invite dbAlreadyMember "t" 2 10).db.memberships =
      dbAlreadyMember.memberships :=
  ⟨(accept_group_invite_outcomes dbInviteOnly "nope" 2 10).1 (by decide),
   (accept_group_invite_outcomes dbUsedInvite "t" 3 10).2.1 usedInviteRow (by decide)
     (Or.inl (by decide)),
   ⟨((accept_group_invite_outcomes dbInviteOnly "t" 2 10).2.2 inviteRow (by decide)
       (by decide) (by decide)).1,
    ((accept_group_invite_outcomes dbInviteOnly "t" 2 10).2.2 inviteRow (by decide)
       (by decide) (by decide)).2.1 (by decide)⟩,
   ((accept_group_invite_outcomes dbAlreadyMember "t" 2 10).2.2 inviteRow (by decide)
       (by decide) (by decide)).2.2 (by decide)⟩

/-- C2.  Two concurrent redemptions of the same token under the schedule
read-read-commit-commit, which the lock-free read-then-write code admits:
both redemptions pass the `used == false` check, both report success, and
two membership rows for group 1 are created — the claim's "exactly one
membership, second attempt observes Conflict" fails on this schedule. -/
theorem concurrent_redemption_double_spend :
    (concurrent_redemptions dbInviteOnly "t" 2 3 10).1.isSome = true ∧
    (concurrent_redemptions dbInviteOnly "t" 2 3 10).2.1.isSome = true ∧
    (concurrent_redemptions dbInviteOnly "t" 2 3 10).2.2.memberships.countP
      (fun m => m.group_id == 1) = 2 := by
  decide

/-- C3.  One call of `accept_group_invite` is atomic: on failure it commits
nothing and the visible state is the original one; on success the returned
invite is consumed (used at `now` by the requesting user), the final state
holds a membership of that user in the invite's group, and exactly one
commit — of exactly that final state — makes both effects durable
together. -/
theorem accept_group_invite_atomic (db : DB) (token : String) (uid now : Nat) :
    ((accept_group_invite db token uid now).invite = none →
      (accept_group_invite db token uid now).db = db ∧
      (accept_group_invite db token uid now).commits = []) ∧
    (∀ inv, (accept_group_invite db token uid now).invite = some inv →
      inv.used = true ∧ inv.used_at = some now ∧ inv.invited_user_id = some uid ∧
      hasMembership (accept_group_invite db token uid now).db uid inv.group_id = true ∧
      (accept_group_invite db token uid now).commits =
        [(accept_group_invite db token uid now).db]) := by
  cases hlook : get_group_invite_by_token db token with
  | none =>
    refine ⟨fun _ => ?_, fun inv hinv => ?_⟩
    · constructor <;> simp [accept_group_invite, hlook]
    · simp [accept_group_invite, hlook] at hinv
  | some invite =>
    cases hu : (invite.used || inviteExpired invite now) with
    | true =>
      refine ⟨fun _ => ?_, fun inv hinv => ?_⟩
      · constructor <;> simp [accept_group_invite, hlook, hu]
      · simp [accept_group_invite, hlook, hu] at hinv
    | false =>
      refine ⟨fun hnone => ?_, fun inv hinv => ?_⟩
      · exfalso
        simp [accept_group_invite, hlook, hu] at hnone
      · simp only [accept_group_invite, hlook, hu, Bool.false_eq_true, if_false,
          Option.some.injEq] at hinv
        subst hinv
        refine ⟨rfl, rfl, rfl, ?_, ?_⟩
        · simp only [accept_group_invite, hlook, hu, Bool.false_eq_true, if_false]
          cases hfind : db.memberships.find?
              (fun m => m.user_id == uid && m.group_id == invite.group_id) with
          | some m =>
            have hp := List.find?_some hfind
            have hmem := List.mem_of_find?_eq_some hfind
            simp only [hfind, hasMembership, List.any_eq_true]
            exact ⟨m, hmem, hp⟩
          | none =>
            simp only [hfind, hasMembership, List.any_eq_true]
            exact ⟨⟨uid, invite.group_id, Role.viewer, now⟩,
              List.mem_append_right _ (by simp), by simp⟩
        · simp [accept_group_invite, hlook, hu]

/-- C3, witness for `accept_group_invite_atomic`: both branches on concrete
states — a failed redemption of an unknown token leaves the state untouched
with no commit, and user 2's successful redemption commits the consumed
invite together with the new membership in one commit. -/
theorem accept_group_invite_atomic_witness :
    ((accept_group_invite dbInviteOnly "nope" 7 3).db = dbInviteOnly ∧
      (accept_group_invite dbInviteOnly "nope" 7 3).commits = []) ∧
    (consumedInviteRow.used = true ∧
      consumedInviteRow.used_at = some 10 ∧
      consumedInviteRow.invited_user_id = some 2 ∧
      hasMembership (accept_group_invite dbInviteOnly "t" 2 10).db 2
        consumedInviteRow.group_id = true ∧
      (accept_group_invite dbInviteOnly "t" 2 10).commits =
        [(accept_group_invite dbInviteOnly "t" 2 10).db]) :=
  ⟨(accept_group_invite_atomic dbInviteOnly "nope" 7 3).1 (by decide),
   (accept_group_invite_atomic dbInviteOnly "t" 2 10).2 consumedInviteRow (by decide)⟩

/-- C4.  A consumed invite stays consumed: redeeming a used invite returns
the failure value with the state unchanged and nothing committed, and none
of the invite operations — accepting, issuing (with a fresh token), or
revoking — ever turns an invite row carrying a fully-consumed token back
into an unused one. -/
theorem consumed_invite_stays_consumed :
    (∀ db token uid now inv, get_group_invite_by_token db token = some inv →
      inv.used = true →
      accept_group_invite db token uid now = ⟨none, db, []⟩) ∧
    (∀ db token uid now t, allUsed db t →
      allUsed (accept_group_invite db token uid now).db t) ∧
    (∀ db gid inviter token exp id now t, allUsed db t → token ≠ t →
      allUsed (create_group_invite db gid inviter token exp id now).2 t) ∧
    (∀ db iid t, allUsed db t → allUsed (revoke_group_invite db iid).2 t) := by
  refine ⟨?_, ?_, ?_, ?_⟩
  · intro db token uid now inv hlook husd
    simp [accept_group_invite, hlook, husd]
  · intro db token uid now t hall
    cases hlook : get_group_invite_by_token db token with
    | none => simpa [accept_group_invite, hlook] using hall
    | some invite =>
      cases hu : (invite.used || inviteExpired invite now) with
      | true => simpa [accept_group_invite, hlook, hu] using hall
      | false =>
        simp only [accept_group_invite, hlook, hu, Bool.false_eq_true, if_false]
        intro j hj hjt
        rcases mem_updateFirst hj with hj' | ⟨x, _, rfl⟩
        · exact hall j hj' hjt
        · rfl
  · intro db gid inviter token exp id now t hall hne
    intro j hj hjt
    simp only [create_group_invite] at hj
    rcases List.mem_append.mp hj with hj' | hj'
    · exact hall j hj' hjt
    · rw [List.mem_singleton.mp hj'] at hjt
      exact absurd hjt hne
  · intro db iid t hall j hj hjt
    simp only [revoke_group_invite] at hj
    exact hall j (List.mem_of_mem_filter hj) hjt

/-- C4, witness for `consumed_invite_stays_consumed`: the consumed invite
`usedInviteRow` for token t blocks a later redemption and stays consumed
under a redemption attempt, an issuance with a fresh token, and a
revocation. -/
theorem consumed_invite_stays_consumed_witness :
    accept_group_invite dbUsedInvite "t" 4 20 = ⟨none, dbUsedInvite, []⟩ ∧
    allUsed (accept_group_invite dbUsedInvite "t" 4 20).db "t" ∧
    allUsed (create_group_invite dbUsedInvite 1 5 "t9" none 2 30).2 "t" ∧
    allUsed (revoke_group_invite dbUsedInvite 1).2 "t" :=
  ⟨consumed_invite_stays_consumed.1 dbUsedInvite "t" 4 20 usedInviteRow
     (by decide) (by decide),
   consumed_invite_stays_consumed.2.1 dbUsedInvite "t" 4 20 "t" (by decide),
   consumed_invite_stays_consumed.2.2.1 dbUsedInvite 1 5 "t9" none 2 30 "t"
     (by decide) (by decide),
   consumed_invite_stays_consumed.2.2.2 dbUsedInvite 1 "t" (by decide)⟩

/-- C9.  When the valid, unused, unexpired invite is redeemed by a user who
already belongs to its target group, the call still succeeds: no new
membership row is added (the membership table is unchanged, so no
duplicate), yet the invite is consumed — used at `now` by that user — and
returned as a successful redemption. -/
theorem accept_invite_already_member (db : DB) (token : String) (uid now : Nat)
    (inv : GroupInvite) :
    get_group_invite_by_token db token = some inv →
    inv.used = false → inviteExpired inv now = false →
    hasMembership db uid inv.group_id = true →
    (accept_group_invite db token uid now).invite =
      some { inv with used := true, used_at := some now, invited_user_id := some uid } ∧
    (accept_group_invite db token uid now).db.memberships = db.memberships := by
  intro hlook hu he hmem
  have hcond : (inv.used || inviteExpired inv now) = false := by simp [hu, he]
  have hsome : (db.memberships.find?
      (fun m => m.user_id == uid && m.group_id == inv.group_id)).isSome = true := by
    rw [List.find?_isSome]
    simpa [hasMembership, List.any_eq_true] using hmem
  cases hfind : db.memberships.find?
      (fun m => m.user_id == uid && m.group_id == inv.group_id) with
  | none => rw [hfind] at hsome; simp at hsome
  | some m =>
    simp [accept_group_invite, hlook, hcond, hfind]

/-- C5, counterexample.  The claim says issue-invite returns the existing
non-expired, unused invite of the (group, inviter) pair when one exists,
creating no new row, and otherwise sets expiry to the current time plus a
fixed 7-day TTL.  With the unused invite `pendingInviteRow` for
(group 1, inviter 5) present and unexpired at time 10, the code still
inserts a second row, and the new row's expiry is the caller-supplied value
(here `none`), not now plus 7 days. -/
theorem create_group_invite_reissues :
    (create_group_invite dbPendingInvite 1 5 "t1" none 2 10).2.invites.length = 2 ∧
    (create_group_invite dbPendingInvite 1 5 "t1" none 2 10).1.token = "t1" ∧
    (create_group_invite dbPendingInvite 1 5 "t1" none 2 10).1.expires_at = none := by
  decide

/-- C5, amended.  `create_group_invite` always inserts a fresh invite row:
even when an unused invite of the same (group, inviter) pair already exists,
that row is kept and a new row is appended, and the new row carries the
freshly generated token and the caller-supplied expiry unchanged — no
idempotent re-issue, no fixed TTL. -/
theorem create_group_invite_always_inserts (db : DB) (gid inviter : Nat)
    (token : String) (exp : Option Nat) (id now : Nat) (i : GroupInvite) :
    i ∈ db.invites → i.group_id = gid → i.inviter_user_id = inviter →
    i.used = false →
    (create_group_invite db gid inviter token exp id now).2.invites.length =
      db.invites.length + 1 ∧
    i ∈ (create_group_invite db gid inviter token exp id now).2.invites ∧
    (create_group_invite db gid inviter token exp id now).1.expires_at = exp ∧
    (create_group_invite db gid inviter token exp id now).1.token = token := by
  intro hmem _ _ _
  refine ⟨?_, ?_, rfl, rfl⟩
  · simp [create_group_invite]
  · simp only [create_group_invite]
    exact List.mem_append_left _ hmem

/-- C5, witness for `create_group_invite_always_inserts`: issuing over the
pending invite of (group 1, inviter 5) at time 10. -/
theorem create_group_invite_always_inserts_witness :
    (create_group_invite dbPendingInvite 1 5 "t1" none 2 10).2.invites.length =
      dbPendingInvite.invites.length + 1 ∧
    pendingInviteRow ∈ (create_group_invite dbPendingInvite 1 5 "t1" none 2 10).2.invites ∧
    (create_group_invite dbPendingInvite 1 5 "t1" none 2 10).1.expires_at = none ∧
    (create_group_invite dbPendingInvite 1 5 "t1" none 2 10).1.token = "t1" :=
  create_group_invite_always_inserts dbPendingInvite 1 5 "t1" none 2 10
    pendingInviteRow (by decide) (by decide) (by decide) (by decide)

/-- C9, witness for `accept_invite_already_member`: user 2 already a viewer
of group 1 redeems the invite to group 1 — success, invite consumed, and the
membership table unchanged. -/
theorem accept_invite_already_member_witness :
    (accept_group_invite dbAlreadyMember "t" 2 10).invite = some consumedInviteRow ∧
    (accept_group_invite dbAlreadyMember "t" 2 10).db.memberships =
      dbAlreadyMember.memberships :=
  accept_invite_already_member dbAlreadyMember "t" 2 10 inviteRow
    (by decide) (by decide) (by decide) (by decide)

/-- C6.  Starting from a state with no reaction of the (message, user) pair:
the first call of `create_reaction` inserts exactly one row; a second call
with the same type is a no-op returning the same row on the unchanged state;
a call with a different type rewrites `reaction_type` on that same row,
preserving its `reaction_id` and `created_at`, and the pair still has
exactly that one row. -/
theorem set_reaction_upsert (db : DB) (mid uid : Nat) (t t2 : String)
    (id1 id2 n1 n2 : Nat) :
    reactionRows db mid uid = [] →
    (reactionRows (create_reaction db mid uid t id1 n1).2 mid uid =
        [⟨id1, mid, uid, t, n1⟩] ∧
      (create_reaction db mid uid t id1 n1).1 = ⟨id1, mid, uid, t, n1⟩) ∧
    create_reaction (create_reaction db mid uid t id1 n1).2 mid uid t id2 n2 =
      ((create_reaction db mid uid t id1 n1).1,
        (create_reaction db mid uid t id1 n1).2) ∧
    (t2 ≠ t →
      reactionRows
          (create_reaction (create_reaction db mid uid t id1 n1).2 mid uid t2 id2 n2).2
          mid uid =
        [⟨id1, mid, uid, t2, n1⟩] ∧
      (create_reaction (create_reaction db mid uid t id1 n1).2 mid uid t2 id2 n2).1 =
        ⟨id1, mid, uid, t2, n1⟩) := by
  intro hempty
  have hnotin : ∀ r ∈ db.reactions,
      ¬ (r.message_id == mid && r.user_id == uid) = true :=
    List.filter_eq_nil_iff.mp (by simpa [reactionRows] using hempty)
  have hfind : db.reactions.find?
      (fun r => r.message_id == mid && r.user_id == uid) = none :=
    List.find?_eq_none.mpr hnotin
  have hfalse : ∀ r ∈ db.reactions,
      (fun r : MessageReaction => r.message_id == mid && r.user_id == uid) r = false := by
    intro r hr
    exact Bool.not_eq_true _ ▸ Bool.eq_false_iff.mpr (hnotin r hr)
  have hfind1 : ((db.reactions ++ [(⟨id1, mid, uid, t, n1⟩ : MessageReaction)]).find?
      (fun r => r.message_id == mid && r.user_id == uid)) =
      some ⟨id1, mid, uid, t, n1⟩ := by
    rw [List.find?_append, hfind, Option.none_or]
    exact List.find?_cons_of_pos _ (by simp)
  refine ⟨⟨?_, ?_⟩, ?_, ?_⟩
  · simp only [create_reaction, hfind, reactionRows, List.filter_append]
    rw [List.filter_eq_nil_iff.mpr hnotin]
    simp
  · simp [create_reaction, hfind]
  · simp only [create_reaction, hfind, hfind1, beq_self_eq_true, if_pos]
  · intro hne
    have htype : ((⟨id1, mid, uid, t, n1⟩ : MessageReaction).reaction_type == t2) = false :=
      beq_eq_false_iff_ne.mpr (fun h => hne h.symm)
    have hupd : updateFirst
        (fun r : MessageReaction => r.message_id == mid && r.user_id == uid)
        (fun r => { r with reaction_type := t2 })
        (db.reactions ++ [(⟨id1, mid, uid, t, n1⟩ : MessageReaction)]) =
        db.reactions ++ [(⟨id1, mid, uid, t2, n1⟩ : MessageReaction)] := by
      rw [updateFirst_append_of_not hfalse]
      simp [updateFirst]
    constructor
    · simp only [create_reaction, hfind, hfind1, htype, Bool.false_eq_true, if_false,
        hupd, reactionRows, List.filter_append]
      rw [List.filter_eq_nil_iff.mpr hnotin]
      simp
    · simp only [create_reaction, hfind, hfind1, htype, Bool.false_eq_true, if_false]

/-- C6, witness for `set_reaction_upsert`: user 2 reacts to message 1 with
type like (row id 7, created at 100), repeats it, then switches to type
heart — one row throughout, id and creation time preserved. -/
theorem set_reaction_upsert_witness :
    (reactionRows (create_reaction emptyDB 1 2 "like" 7 100).2 1 2 =
        [⟨7, 1, 2, "like", 100⟩] ∧
      (create_reaction emptyDB 1 2 "like" 7 100).1 = ⟨7, 1, 2, "like", 100⟩) ∧
    create_reaction (create_reaction emptyDB 1 2 "like" 7 100).2 1 2 "like" 8 200 =
      ((create_reaction emptyDB 1 2 "like" 7 100).1,
        (create_reaction emptyDB 1 2 "like" 7 100).2) ∧
    (reactionRows
        (create_reaction (create_reaction emptyDB 1 2 "like" 7 100).2 1 2 "heart" 8 200).2
        1 2 =
      [⟨7, 1, 2, "heart", 100⟩] ∧
      (create_reaction (create_reaction emptyDB 1 2 "like" 7 100).2 1 2 "heart" 8 200).1 =
        ⟨7, 1, 2, "heart", 100⟩) :=
  ⟨(set_reaction_upsert emptyDB 1 2 "like" "heart" 7 8 100 200 (by decide)).1,
   (set_reaction_upsert emptyDB 1 2 "like" "heart" 7 8 100 200 (by decide)).2.1,
   (set_reaction_upsert emptyDB 1 2 "like" "heart" 7 8 100 200 (by decide)).2.2
     (by decide)⟩

/-- C10.  `delete_reaction` totally removes the pair's reaction rows — also
when there are none, the call succeeds and commits — and it is idempotent:
running it a second time returns the state unchanged. -/
theorem remove_reaction_idempotent (db : DB) (mid uid : Nat) :
    reactionRows (delete_reaction db mid uid) mid uid = [] ∧
    delete_reaction (delete_reaction db mid uid) mid uid = delete_reaction db mid uid := by
  constructor
  · simp only [delete_reaction, reactionRows]
    rw [List.filter_filter]
    apply List.filter_eq_nil_iff.mpr
    intro a _
    simp
  · simp only [delete_reaction]
    congr 1
    rw [List.filter_filter]
    simp

/-- C7.  `delete_item` on an existing item reports success and removes the
item row and every one of its image rows, whatever the blob oracle does —
each failed blob deletion only contributes one logged warning — and on a
missing item it reports failure with the state unchanged. -/
theorem delete_item_rows_despite_blob_failures (db : DB) (iid : Nat)
    (blobOk : String → Bool) :
    (0 < db.items.countP (fun it => it.item_id == iid) →
      (delete_item db iid blobOk).ok = true ∧
      (delete_item db iid blobOk).db.items.countP (fun it => it.item_id == iid) = 0 ∧
      (delete_item db iid blobOk).db.itemImages.countP
        (fun im => im.item_id == iid) = 0 ∧
      (delete_item db iid blobOk).warnings =
        ((db.itemImages.filter (fun im => im.item_id == iid)).filter
          (fun im => !(blobOk im.image_url))).map (fun im => im.image_url)) ∧
    (db.items.countP (fun it => it.item_id == iid) = 0 →
      (delete_item db iid blobOk).ok = false ∧
      (delete_item db iid blobOk).db = db) := by
  constructor
  · intro hpos
    simp only [delete_item]
    rw [if_pos hpos]
    refine ⟨rfl, ?_, ?_, rfl⟩
    · apply List.countP_eq_zero.mpr
      intro a ha
      simpa using (List.mem_filter.mp ha).2
    · apply List.countP_eq_zero.mpr
      intro a ha
      simpa using (List.mem_filter.mp ha).2
  · intro hzero
    have hneg : ¬ 0 < db.items.countP (fun it => it.item_id == iid) := by omega
    simp only [delete_item]
    rw [if_neg hneg]
    exact ⟨rfl, rfl⟩

/-- C7, witness for `delete_item_rows_despite_blob_failures`: item 1 with
two images is deleted while every blob deletion fails — success is still
reported, both image rows and the item row are gone, and both URLs are
warned about; deleting from the empty database reports failure. -/
theorem delete_item_rows_despite_blob_failures_witness :
    ((delete_item dbItemTwoImages 1 (fun _ => false)).ok = true ∧
      (delete_item dbItemTwoImages 1 (fun _ => false)).db.items.countP
        (fun it => it.item_id == 1) = 0 ∧
      (delete_item dbItemTwoImages 1 (fun _ => false)).db.itemImages.countP
        (fun im => im.item_id == 1) = 0 ∧
      (delete_item dbItemTwoImages 1 (fun _ => false)).warnings = ["u1", "u2"]) ∧
    ((delete_item emptyDB 1 (fun _ => false)).ok = false ∧
      (delete_item emptyDB 1 (fun _ => false)).db = emptyDB) :=
  ⟨(delete_item_rows_despite_blob_failures dbItemTwoImages 1 (fun _ => false)).1
     (by decide),
   (delete_item_rows_despite_blob_failures emptyDB 1 (fun _ => false)).2
     (by decide)⟩

/-- In a trace consisting of blob-deletion events followed by row-deletion
events, every blob deletion strictly precedes every row deletion. -/
theorem blob_events_precede_row_events (bs rows : List DeleteEvent)
    (hbs : ∀ e ∈ bs, ∃ u, e = DeleteEvent.blobDelete u)
    (hrows : ∀ u, DeleteEvent.blobDelete u ∉ rows) :
    ∀ (i j : Nat) (u : String),
      (bs ++ rows)[i]? = some (DeleteEvent.blobDelete u) →
      ((bs ++ rows)[j]? = some DeleteEvent.attachmentRowsDelete ∨
        (bs ++ rows)[j]? = some DeleteEvent.messageRowDelete) →
      i < j := by
  intro i j u hi hj
  have hilt : i < bs.length := by
    by_contra hile
    push_neg at hile
    rw [List.getElem?_append_right hile] at hi
    exact hrows u (List.getElem?_mem hi)
  have hjge : bs.length ≤ j := by
    by_contra hjlt
    push_neg at hjlt
    rw [List.getElem?_append_left hjlt] at hj
    rcases hj with hj | hj
    · rcases hbs _ (List.getElem?_mem hj) with ⟨u', hu'⟩
      exact absurd hu' (by simp)
    · rcases hbs _ (List.getElem?_mem hj) with ⟨u', hu'⟩
      exact absurd hu' (by simp)
  omega

/-- C8.  `delete_message` on an existing message returns it with all its
attachment rows and the message row removed from the final state; on a
missing message it returns the NotFound signal `none` with the state
unchanged; a blob deletion is attempted for every attachment of the
message; and in the trace every attempted blob deletion strictly precedes
both row deletions. -/
theorem delete_message_blobs_first (db : DB) (mid : Nat)
    (blobOk : String → Bool) :
    (∀ m, db.messages.find? (fun x => x.message_id == mid) = some m →
      (delete_message db mid blobOk).message = some m ∧
      (delete_message db mid blobOk).db.attachments.countP
        (fun a => a.message_id == mid) = 0 ∧
      (delete_message db mid blobOk).db.messages.countP
        (fun x => x.message_id == mid) = 0) ∧
    (db.messages.find? (fun x => x.message_id == mid) = none →
      (delete_message db mid blobOk).message = none ∧
      (delete_message db mid blobOk).db = db) ∧
    (∀ a ∈ db.attachments, a.message_id = mid →
      DeleteEvent.blobDelete a.attachment_url ∈ (delete_message db mid blobOk).events) ∧
    (∀ (i j : Nat) (u : String),
      (delete_message db mid blobOk).events[i]? = some (DeleteEvent.blobDelete u) →
      ((delete_message db mid blobOk).events[j]? = some DeleteEvent.attachmentRowsDelete ∨
        (delete_message db mid blobOk).events[j]? = some DeleteEvent.messageRowDelete) →
      i < j) := by
  have hbs : ∀ e ∈ (db.attachments.filter (fun a => a.message_id == mid)).map
      (fun a => DeleteEvent.blobDelete a.attachment_url),
      ∃ u, e = DeleteEvent.blobDelete u := by
    intro e he
    rcases List.mem_map.mp he with ⟨a, _, rfl⟩
    exact ⟨a.attachment_url, rfl⟩
  cases hlook : db.messages.find? (fun x => x.message_id == mid) with
  | some m0 =>
    refine ⟨?_, ?_, ?_, ?_⟩
    · intro m hm
      injection hm with hm
      subst hm
      simp only [delete_message, hlook]
      refine ⟨trivial, ?_, ?_⟩
      · apply List.countP_eq_zero.mpr
        intro a ha
        simpa using (List.mem_filter.mp ha).2
      · apply List.countP_eq_zero.mpr
        intro a ha
        simpa using (List.mem_filter.mp ha).2
    · intro hnone
      exact absurd hnone (by simp)
    · intro a ha hmid
      simp only [delete_message, hlook]
      exact List.mem_append_left _
        (List.mem_map_of_mem _ (List.mem_filter.mpr ⟨ha, by simp [hmid]⟩))
    · have hev : (delete_message db mid blobOk).events =
          (db.attachments.filter (fun a => a.message_id == mid)).map
            (fun a => DeleteEvent.blobDelete a.attachment_url) ++
          [DeleteEvent.attachmentRowsDelete, DeleteEvent.messageRowDelete] := by
        simp only [delete_message, hlook]
      rw [hev]
      exact blob_events_precede_row_events _ _ hbs (fun u h => by simp at h)
  | none =>
    refine ⟨?_, ?_, ?_, ?_⟩
    · intro m hm
      exact absurd hm (by simp)
    · intro _
      simp [delete_message, hlook]
    · intro a ha hmid
      simp only [delete_message, hlook]
      exact List.mem_append_left _
        (List.mem_map_of_mem _ (List.mem_filter.mpr ⟨ha, by simp [hmid]⟩))
    · have hev : (delete_message db mid blobOk).events =
          (db.attachments.filter (fun a => a.message_id == mid)).map
            (fun a => DeleteEvent.blobDelete a.attachment_url) ++
          [DeleteEvent.attachmentRowsDelete] := by
        simp only [delete_message, hlook]
      rw [hev]
      exact blob_events_precede_row_events _ _ hbs (fun u h => by simp at h)

/-- C8, witness for `delete_message_blobs_first`: message 1 with attachments
a1 and a2 is deleted while the blob deletion of a1 fails; all four parts are
exercised, the ordering part at the blob event of a1 (index 0) against the
attachment-row deletion (index 2). -/
theorem delete_message_blobs_first_witness :
    ((delete_message dbMessageTwoAtts 1 (fun u => u == "a2")).message =
        some ⟨1, 1, 1, "hi"⟩ ∧
      (delete_message dbMessageTwoAtts 1 (fun u => u == "a2")).db.attachments.countP
        (fun a => a.message_id == 1) = 0 ∧
      (delete_message dbMessageTwoAtts 1 (fun u => u == "a2")).db.messages.countP
        (fun x => x.message_id == 1) = 0) ∧
    ((delete_message emptyDB 9 (fun _ => true)).message = none ∧
      (delete_message emptyDB 9 (fun _ => true)).db = emptyDB) ∧
    DeleteEvent.blobDelete "a1" ∈
      (delete_message dbMessageTwoAtts 1 (fun u => u == "a2")).events ∧
    0 < 2 :=
  ⟨(delete_message_blobs_first dbMessageTwoAtts 1 (fun u => u == "a2")).1
     ⟨1, 1, 1, "hi"⟩ (by decide),
   (delete_message_blobs_first emptyDB 9 (fun _ => true)).2.1 (by decide),
   (delete_message_blobs_first dbMessageTwoAtts 1 (fun u => u == "a2")).2.2.1
     ⟨1, 1, "a1", "image"⟩ (by decide) (by decide),
   (delete_message_blobs_first dbMessageTwoAtts 1 (fun u => u == "a2")).2.2.2
     0 2 "a1" (by decide) (Or.inl (by decide))⟩
